import Mathlib

/-!
Shallow embedding of the session-proxy core of `proofd` (file
`src/proofd/inc/XrdProofServProxy.h`) and verification of spec claims
about it.

Modelling conventions:
* C++ pointers (`XrdProofWorker *`, `XrdProofdProtocol *`, `XrdSrvBuffer *`)
  are modelled by `Nat` identities, with `Option Nat` when the pointer may
  be null (`none` = NULL).
* `std::list<XrdProofWorker *>` is a `List Nat`; `push_back` appends at the
  end; `std::list::remove(w)` removes every element equal to `w`.
* `std::vector<XrdClientID *>` is a `List XrdClientID`.
* `malloc` is assumed to succeed in the copying constructor branch
  (a failed allocation leaves the C++ object uninitialized, which has no
  defined value to embed).
-/

namespace XrdProofd

/-! ## Worker pool (`fWorkers`, lines 176-178 of the header)

Source:
  `int  GetNWorkers() { ... return (int) fWorkers.size(); }`
  `void AddWorker(XrdProofWorker *w) { ... fWorkers.push_back(w); }`
  `void RemoveWorker(XrdProofWorker *w) { ... fWorkers.remove(w); }`
-/

/-- `fWorkers.push_back(w)`: unconditional append at the back. -/
def AddWorker (w : Nat) (pool : List Nat) : List Nat :=
  pool ++ [w]

/-- `fWorkers.remove(w)`: `std::list::remove` erases every element equal
to `w`, keeping the relative order of the rest. -/
def RemoveWorker (w : Nat) (pool : List Nat) : List Nat :=
  pool.filter (fun x => x ≠ w)

/-- `(int) fWorkers.size()`. -/
def GetNWorkers (pool : List Nat) : Nat :=
  pool.length

/-! ## `XrdSrvBuffer` (lines 42-63 of the header)

A pointer to a byte buffer is modelled as `Option (List Int)`: `none` is a
NULL `char *`, `some bytes` a non-null pointer to those bytes. -/

/-- State of an `XrdSrvBuffer` right after its constructor ran. -/
structure XrdSrvBuffer where
  fSize : Int
  fBuff : Option (List Int)
  fMembuf : Option (List Int)
deriving Repr, DecidableEq

/-- The constructor `XrdSrvBuffer(char *bp=0, int sz=0, bool dup=0)`:

  if `dup && bp && sz > 0` it mallocs `sz` bytes, copies `bp` there and
  sets `fBuff = fMembuf = ` the copy, `fSize = sz` (malloc assumed to
  succeed); otherwise it sets `fBuff = fMembuf = bp` and `fSize = sz`
  unconditionally, whatever the arguments are. -/
def XrdSrvBuffer.construct (bp : Option (List Int)) (sz : Int) (dup : Bool) :
    XrdSrvBuffer :=
  match dup, bp with
  | true, some bytes =>
      if sz > 0 then
        let copy := bytes.take sz.toNat
        { fSize := sz, fBuff := some copy, fMembuf := some copy }
      else
        { fSize := sz, fBuff := bp, fMembuf := bp }
  | _, _ => { fSize := sz, fBuff := bp, fMembuf := bp }

/-! ## Buffered message holders of the proxy (lines 142-164, 220-223)

The proxy stores three `XrdSrvBuffer *` fields.  Holder objects are
identified by `Nat`; the field is `Option Nat` (`none` = NULL).  C++
`delete` calls are recorded in a `freed` log so that "the proxy frees the
previous holder" is a statable property of the embedding.

Source:
  `SetQueryNum(XrdSrvBuffer *qn)     { ... fQueryNum = qn; }`
  `SetRequirements(XrdSrvBuffer *rq) { ... fRequirements = rq; }`
  `SetStartMsg(XrdSrvBuffer *sm)     { ... fStartMsg = sm; }`
  `DeleteQueryNum() { ... if (fQueryNum) delete fQueryNum; fQueryNum = 0; }`
  `DeleteStartMsg() { ... if (fStartMsg) delete fStartMsg; fStartMsg = 0; }`
-/

/-- The three buffered-holder fields of the proxy plus the log of `delete`
calls it has issued. -/
structure BufState where
  fQueryNum : Option Nat
  fStartMsg : Option Nat
  fRequirements : Option Nat
  freed : List Nat
deriving Repr, DecidableEq

/-- `SetQueryNum(qn)`: plain pointer assignment, no `delete`. -/
def SetQueryNum (s : BufState) (qn : Option Nat) : BufState :=
  { s with fQueryNum := qn }

/-- `SetRequirements(rq)`: plain pointer assignment, no `delete`. -/
def SetRequirements (s : BufState) (rq : Option Nat) : BufState :=
  { s with fRequirements := rq }

/-- `SetStartMsg(sm)`: plain pointer assignment, no `delete`. -/
def SetStartMsg (s : BufState) (sm : Option Nat) : BufState :=
  { s with fStartMsg := sm }

/-- `QueryNum()` getter. -/
def QueryNum (s : BufState) : Option Nat := s.fQueryNum

/-- `Requirements()` getter. -/
def Requirements (s : BufState) : Option Nat := s.fRequirements

/-- `StartMsg()` getter. -/
def StartMsg (s : BufState) : Option Nat := s.fStartMsg

/-- `DeleteQueryNum()`: `if (fQueryNum) delete fQueryNum; fQueryNum = 0;`. -/
def DeleteQueryNum (s : BufState) : BufState :=
  match s.fQueryNum with
  | some p => { s with fQueryNum := none, freed := s.freed ++ [p] }
  | none => { s with fQueryNum := none }

/-- `DeleteStartMsg()`: `if (fStartMsg) delete fStartMsg; fStartMsg = 0;`. -/
def DeleteStartMsg (s : BufState) : BufState :=
  match s.fStartMsg with
  | some p => { s with fStartMsg := none, freed := s.freed ++ [p] }
  | none => { s with fStartMsg := none }

/-! ## `XrdClientID` (lines 78-89 of the header) -/

/-- `XrdClientID`: `XrdProofdProtocol *fP` (`Option Nat`, `none` = NULL)
and `unsigned short fSid` (kept in range by `% 2^16` at construction). -/
structure XrdClientID where
  fP : Option Nat
  fSid : Nat
deriving Repr, DecidableEq

/-- The constructor `XrdClientID(XrdProofdProtocol *pt = 0, unsigned short id = 0)`. -/
def XrdClientID.construct (pt : Option Nat) (id : Nat) : XrdClientID :=
  { fP := pt, fSid := id % 2 ^ 16 }

/-- `IsValid() const { return (fP != 0); }`. -/
def XrdClientID.IsValid (c : XrdClientID) : Bool :=
  c.fP.isSome

/-- `Reset() { fP = 0; fSid = 0; }`. -/
def XrdClientID.Reset (_c : XrdClientID) : XrdClientID :=
  { fP := none, fSid := 0 }

/-! ## Client-handle table (`fClients`)

`GetFreeID`, `GetNClients` and client detach are declared in the header
(lines 166-168) but implemented in `XrdProofServProxy.cxx`, which is not
part of the sources; they are modelled from the spec below. -/

/-- A freshly appended slot: an invalid handle. -/
def blankClientID : XrdClientID := { fP := none, fSid := 0 }

/-- Modelled from the spec (implementation `XrdProofServProxy.cxx` is
missing from the sources): "`GetFreeID()`: scans the client-handle
sequence for the first invalid slot; if found, returns its index;
otherwise appends a new invalid slot and returns the new index."
Returns the (possibly extended) sequence together with the index. -/
def GetFreeID (cs : List XrdClientID) : List XrdClientID × Nat :=
  match cs.findIdx? (fun c => !c.IsValid) with
  | some i => (cs, i)
  | none => (cs ++ [blankClientID], cs.length)

/-- Modelled from the spec (implementation `XrdProofServProxy.cxx` is
missing from the sources): "`GetNClients()`: count of slots whose handle
is currently valid (not merely sequence length)." -/
def GetNClients (cs : List XrdClientID) : Nat :=
  cs.countP (fun c => c.IsValid)

/-- An attach/detach event on the client-handle table.  `attach p sid`
carries the connection identity `p` and the caller-chosen stream id. -/
inductive ClientOp where
  | attach (p : Nat) (sid : Nat)
  | detach (k : Nat)
deriving Repr, DecidableEq

/-- Modelled from the spec: attaching stores a valid handle into the slot
`GetFreeID()` returns; detaching index `k` resets that slot to the invalid
state in place ("detaching a client resets its slot to invalid rather than
removing it"); a detach of an out-of-range index leaves the sequence
unchanged (`List.set` is the identity there). -/
def applyClientOp (cs : List XrdClientID) : ClientOp → List XrdClientID
  | .attach p sid =>
      let fid := GetFreeID cs
      fid.1.set fid.2 (XrdClientID.construct (some p) sid)
  | .detach k =>
      cs.set k ((cs.getD k blankClientID).Reset)

/-- Folding a sequence of attach/detach events over a table state. -/
def runClientOps (cs : List XrdClientID) (ops : List ClientOp) :
    List XrdClientID :=
  ops.foldl applyClientOp cs

/-! ## Public operations of `XrdProofServProxy` (lines 112-206)

For the aliasing claim the public interface is enumerated and each
operation classified by whether its source returns a pointer to one of the
two internal collections `fClients` / `fWorkers` themselves. -/

/-- One constructor per public member function of `XrdProofServProxy`,
in header order (lines 116-206). -/
inductive PublicOp where
  | Alias | Client | Fileout | FracEff | Group | ID | IsParent | Link
  | Match | Mutex | ProofSrv | PingSem | Ordinal | QueryNum | Requirements
  | ROOT | SrvID | SrvType | SetFracEff | SetGroup | SetID | SetLink
  | SetParent | SetProtVer | SetQueryNum | SetRequirements | SetROOT
  | SetSrvType | SetStartMsg | SetStatus | SetShutdown | SetValid
  | StartMsg | Status | Tag | UserEnvs | CreatePingSem | DeletePingSem
  | DeleteQueryNum | DeleteStartMsg | GetClientID | GetFreeID | GetNClients
  | Parent | Clients | Workers | GetNWorkers | AddWorker | RemoveWorker
  | SetAlias | SetClient | SetFileout | SetOrdinal | SetTag | SetUserEnvs
  | IsShutdown | IsValid | StatusAsString | ChangeProcessPriority
  | SetShutdownTimer | TerminateProofServ | VerifyProofServ | SetInflate
  | SetSchedRoundRobin | SetSrv | Reset
deriving Repr, DecidableEq

/-- Whether the operation's source hands the caller a mutable pointer to
one of the internal collections.  From the header: only
`Clients()` returns `(std::vector<XrdClientID *> *)&fClients` (line 172)
and `Workers()` returns `(std::list<XrdProofWorker *> *)&fWorkers`
(line 174), both casting the `const` qualifier away; every other public
operation returns a scalar, a string pointer, a pointer to a single
object (e.g. `GetClientID` returns one element, not the vector) or
nothing. -/
def exposesInternalCollection : PublicOp → Bool
  | .Clients => true
  | .Workers => true
  | _ => false

/-! ## Helper lemmas -/

lemma length_removeWorker (w : Nat) (pool : List Nat) :
    (RemoveWorker w pool).length = pool.length - pool.count w := by
  induction pool with
  | nil => rfl
  | cons a t ih =>
    have hcl : t.count w ≤ t.length := List.count_le_length w t
    by_cases h : a = w
    · have h1 : (RemoveWorker w (a :: t)).length = (RemoveWorker w t).length := by
        simp [RemoveWorker, List.filter_cons, h]
      have h2 : (a :: t).count w = t.count w + 1 := by
        simp [List.count_cons, h]
      simp only [List.length_cons, h1, h2, ih]
      omega
    · have h1 : (RemoveWorker w (a :: t)).length = (RemoveWorker w t).length + 1 := by
        simp [RemoveWorker, List.filter_cons, h]
      have h2 : (a :: t).count w = t.count w := by
        simp [List.count_cons, h]
      simp only [List.length_cons, h1, h2, ih]
      omega

lemma not_mem_removeWorker (w : Nat) (pool : List Nat) : w ∉ RemoveWorker w pool := by
  simp [RemoveWorker, List.mem_filter]

lemma getD_eq_getElem (cs : List XrdClientID) (j : Nat) (h : j < cs.length) :
    cs.getD j blankClientID = cs[j] := by
  rw [List.getD_eq_getElem?_getD, List.getElem?_eq_getElem h]
  rfl

lemma valid_slot_lt_length (cs : List XrdClientID) (i : Nat)
    (hv : (cs.getD i blankClientID).IsValid = true) : i < cs.length := by
  by_contra hle
  push_neg at hle
  rw [List.getD_eq_getElem?_getD, List.getElem?_eq_none hle] at hv
  exact absurd hv (by simp [blankClientID, XrdClientID.IsValid])

lemma detach_slot_invalid (cs : List XrdClientID) (k : Nat)
    (hk : k < cs.length) :
    ((applyClientOp cs (ClientOp.detach k)).getD k blankClientID).IsValid
      = false := by
  simp [applyClientOp, List.getD_eq_getElem?_getD, List.getElem?_set, hk,
    XrdClientID.Reset, XrdClientID.IsValid]

lemma getFreeID_after_detach_le (cs : List XrdClientID) (k : Nat)
    (hk : k < cs.length) :
    (GetFreeID (applyClientOp cs (ClientOp.detach k))).2 ≤ k := by
  have hlen : (applyClientOp cs (ClientOp.detach k)).length = cs.length := by
    simp [applyClientOp]
  have hk2 : k < (applyClientOp cs (ClientOp.detach k)).length := by omega
  have hslot :
      (!((applyClientOp cs (ClientOp.detach k))[k]).IsValid) = true := by
    have hd := detach_slot_invalid cs k hk
    rw [getD_eq_getElem _ k hk2] at hd
    simp [hd]
  cases h : (applyClientOp cs (ClientOp.detach k)).findIdx?
      (fun c => !c.IsValid) with
  | none =>
    have hall := List.findIdx?_eq_none_iff.mp h
    have := hall _ (List.getElem_mem hk2)
    rw [this] at hslot
    cases hslot
  | some i =>
    obtain ⟨hlt, hpi, hmin⟩ := List.findIdx?_eq_some_iff_getElem.mp h
    have hres : (GetFreeID (applyClientOp cs (ClientOp.detach k))).2 = i := by
      simp [GetFreeID, h]
    rw [hres]
    by_contra hgt
    push_neg at hgt
    exact (hmin k hgt) hslot

lemma applyClientOp_preserves_valid_slot (cs : List XrdClientID)
    (op : ClientOp) (i : Nat)
    (hv : (cs.getD i blankClientID).IsValid = true)
    (hne : op ≠ ClientOp.detach i) :
    (applyClientOp cs op).getD i blankClientID = cs.getD i blankClientID := by
  have hi : i < cs.length := valid_slot_lt_length cs i hv
  cases op with
  | attach p sid =>
    cases h : cs.findIdx? (fun c => !c.IsValid) with
    | some j =>
      obtain ⟨hlt, hpj, hmin⟩ := List.findIdx?_eq_some_iff_getElem.mp h
      have hji : j ≠ i := by
        intro e
        subst e
        rw [getD_eq_getElem cs j hlt] at hv
        simp [hv] at hpj
      have hred : applyClientOp cs (ClientOp.attach p sid)
          = cs.set j (XrdClientID.construct (some p) sid) := by
        simp [applyClientOp, GetFreeID, h]
      rw [hred]
      simp only [List.getD_eq_getElem?_getD]
      rw [List.getElem?_set_ne hji]
    | none =>
      have hred : applyClientOp cs (ClientOp.attach p sid)
          = (cs ++ [blankClientID]).set cs.length
              (XrdClientID.construct (some p) sid) := by
        simp [applyClientOp, GetFreeID, h]
      have hne2 : cs.length ≠ i := by omega
      rw [hred]
      simp only [List.getD_eq_getElem?_getD]
      rw [List.getElem?_set_ne hne2, List.getElem?_append]
      simp [hi]
  | detach k =>
    have hk : k ≠ i := fun e => hne (by rw [e])
    simp only [applyClientOp, List.getD_eq_getElem?_getD]
    rw [List.getElem?_set_ne hk]

lemma runClientOps_stable (ops : List ClientOp) :
    ∀ (cs : List XrdClientID) (i : Nat),
      (cs.getD i blankClientID).IsValid = true →
      (∀ op ∈ ops, op ≠ ClientOp.detach i) →
      (runClientOps cs ops).getD i blankClientID = cs.getD i blankClientID := by
  induction ops with
  | nil =>
    intro cs i hv hne
    rfl
  | cons op rest ih =>
    intro cs i hv hne
    have h1 := applyClientOp_preserves_valid_slot cs op i hv
      (hne op (List.mem_cons_self op rest))
    have hv2 : ((applyClientOp cs op).getD i blankClientID).IsValid = true := by
      rw [h1]
      exact hv
    have hne2 : ∀ o ∈ rest, o ≠ ClientOp.detach i :=
      fun o ho => hne o (List.mem_cons_of_mem op ho)
    have hrun : runClientOps cs (op :: rest)
        = runClientOps (applyClientOp cs op) rest := by
      simp [runClientOps]
    rw [hrun, ih (applyClientOp cs op) i hv2 hne2, h1]

/-! ## Claims about the worker pool -/

/-- C1 counterexample: with the pool `[5]` the worker `5` is already a
member, yet `AddWorker(5)` changes `GetNWorkers()` from 1 to 2 — the
source appends with `push_back` and never deduplicates, so the claimed
idempotence fails. -/
theorem AddWorker_member_changes_count_cex :
    5 ∈ [5] ∧ GetNWorkers (AddWorker 5 [5]) ≠ GetNWorkers [5] := by
  decide

/-- C1 amended: `AddWorker(w)` appends unconditionally, so every call —
also one whose argument is already a member of the pool — increases
`GetNWorkers()` by exactly one; the pool performs no deduplication. -/
theorem AddWorker_always_increments_count (pool : List Nat) (w : Nat) :
    GetNWorkers (AddWorker w pool) = GetNWorkers pool + 1 := by
  simp [GetNWorkers, AddWorker]

/-- C6: removing a worker that is not a member of the pool is a no-op:
the pool and `GetNWorkers()` are unchanged, and `RemoveWorker` has no
failure channel (it returns `void` in the source). -/
theorem RemoveWorker_absent_noop (pool : List Nat) (w : Nat) (h : w ∉ pool) :
    RemoveWorker w pool = pool ∧
    GetNWorkers (RemoveWorker w pool) = GetNWorkers pool := by
  have heq : RemoveWorker w pool = pool := by
    refine List.filter_eq_self.mpr ?_
    intro a ha
    simp only [decide_eq_true_eq]
    exact fun e => h (e ▸ ha)
  exact ⟨heq, by rw [heq]⟩

/-- C6 witness: `RemoveWorker 7` on the pool `[1, 2]` (which does not
contain 7) leaves the pool and its size unchanged. -/
theorem RemoveWorker_absent_noop_witness :
    RemoveWorker 7 [1, 2] = [1, 2] ∧
    GetNWorkers (RemoveWorker 7 [1, 2]) = GetNWorkers [1, 2] :=
  RemoveWorker_absent_noop [1, 2] 7 (by decide)

/-- C10: `fWorkers.remove(w)` (`std::list::remove`) erases every
occurrence of `w`: if `w` occurs `n ≥ 1` times, a single `RemoveWorker(w)`
decreases `GetNWorkers()` by `n` and leaves no occurrence of `w`. -/
theorem RemoveWorker_removes_all_occurrences (pool : List Nat) (w : Nat)
    (n : Nat) (hc : pool.count w = n) (hn : 1 ≤ n) :
    GetNWorkers (RemoveWorker w pool) = GetNWorkers pool - n ∧
    w ∉ RemoveWorker w pool := by
  subst hc
  exact ⟨length_removeWorker w pool, not_mem_removeWorker w pool⟩

/-- C10 witness: in the pool `[3, 1, 3]` the worker 3 occurs twice; one
`RemoveWorker 3` call drops the size from 3 to 1 and removes both
occurrences. -/
theorem RemoveWorker_removes_all_occurrences_witness :
    GetNWorkers (RemoveWorker 3 [3, 1, 3]) = GetNWorkers [3, 1, 3] - 2 ∧
    3 ∉ RemoveWorker 3 [3, 1, 3] :=
  RemoveWorker_removes_all_occurrences [3, 1, 3] 3 2 (by decide) (by decide)

/-! ## Claims about `XrdSrvBuffer` -/

/-- C2 counterexample: `XrdSrvBuffer(0, 1, 0)` — a null buffer pointer
with size 1 and no copy — takes the non-copying branch, which stores the
arguments unchecked: the constructed object has `fSize = 1 > 0` and
`fBuff = NULL`, the very state the claim says is never produced. -/
theorem XrdSrvBuffer_invariant_cex :
    0 < (XrdSrvBuffer.construct none 1 false).fSize ∧
    (XrdSrvBuffer.construct none 1 false).fBuff = none := by
  exact ⟨by norm_num [XrdSrvBuffer.construct], rfl⟩

/-- C2 amended: the constructor validates nothing; the invariant
`fSize > 0 ⇔ fBuff ≠ NULL` holds immediately after construction exactly
when the arguments themselves satisfy `sz > 0 ⇔ bp ≠ NULL` (in the
copying branch the copy is non-null and `fSize = sz > 0`; in the
non-copying branch the arguments are stored as given). -/
theorem XrdSrvBuffer_invariant_of_wellformed_args (bp : Option (List Int))
    (sz : Int) (dup : Bool) (h : 0 < sz ↔ bp ≠ none) :
    (0 < (XrdSrvBuffer.construct bp sz dup).fSize ↔
      (XrdSrvBuffer.construct bp sz dup).fBuff ≠ none) := by
  cases dup <;> cases bp <;> simp_all [XrdSrvBuffer.construct]

/-- C2 amended witness: constructing with a one-byte buffer, size 1 and
the copy policy yields a state satisfying the invariant. -/
theorem XrdSrvBuffer_invariant_of_wellformed_args_witness :
    (0 < (XrdSrvBuffer.construct (some [7]) 1 true).fSize ↔
      (XrdSrvBuffer.construct (some [7]) 1 true).fBuff ≠ none) :=
  XrdSrvBuffer_invariant_of_wellformed_args (some [7]) 1 true (by decide)

/-! ## Claims about the buffered-holder fields of the proxy -/

/-- C3 counterexample: starting from a state holding buffer 1 in all
three fields, each setter installs buffer 2 but the `delete` log of the
result stays empty — the previously held holder 1 is never freed, so the
claimed free-on-replacement does not happen. -/
theorem setters_leave_previous_unfreed_cex :
    StartMsg ⟨some 1, some 1, some 1, []⟩ = some 1 ∧
    1 ∉ (SetStartMsg ⟨some 1, some 1, some 1, []⟩ (some 2)).freed ∧
    1 ∉ (SetQueryNum ⟨some 1, some 1, some 1, []⟩ (some 2)).freed ∧
    1 ∉ (SetRequirements ⟨some 1, some 1, some 1, []⟩ (some 2)).freed := by
  decide

/-- C3 amended: `SetStartMsg`, `SetQueryNum` and `SetRequirements` are
plain pointer assignments: the corresponding getter afterwards returns
the newly set holder, but the previously held holder is not freed (the
`delete` log is unchanged), so replacement leaks it unless the caller
frees it separately. -/
theorem setters_replace_without_freeing (s : BufState) (b : Option Nat) :
    StartMsg (SetStartMsg s b) = b ∧ (SetStartMsg s b).freed = s.freed ∧
    QueryNum (SetQueryNum s b) = b ∧ (SetQueryNum s b).freed = s.freed ∧
    Requirements (SetRequirements s b) = b ∧
    (SetRequirements s b).freed = s.freed :=
  ⟨rfl, rfl, rfl, rfl, rfl, rfl⟩

/-- C8: after `DeleteQueryNum()` the getter `QueryNum()` returns NULL,
and after `DeleteStartMsg()` the getter `StartMsg()` returns NULL, from
any state. -/
theorem delete_resets_holders_to_null (s : BufState) :
    QueryNum (DeleteQueryNum s) = none ∧ StartMsg (DeleteStartMsg s) = none := by
  constructor
  · cases h : s.fQueryNum <;> simp [DeleteQueryNum, QueryNum, h]
  · cases h : s.fStartMsg <;> simp [DeleteStartMsg, StartMsg, h]

/-! ## Claims about `XrdClientID` -/

/-- C7: a client handle is valid exactly when its owning-connection
reference `fP` is non-null, and `Reset()` produces the invalid state
(`IsValid()` false afterwards) as a new field assignment on the same
object, not a destruction. -/
theorem clientID_valid_iff_connection_and_reset_invalid (c : XrdClientID) :
    (c.IsValid = true ↔ c.fP ≠ none) ∧ (c.Reset).IsValid = false :=
  ⟨Option.isSome_iff_ne_none, rfl⟩

/-! ## Claims about the client-handle table (modelled from the spec) -/

/-- C4: `GetFreeID()` returns the index of the first (smallest-index)
invalid slot when one exists, leaving the sequence unchanged; otherwise
it appends one new invalid slot and returns its index.  In particular,
after detaching the client at any in-range index `k`, the next
`GetFreeID()` returns an index `≤ k`, so `k` is reused before any larger
unused index. -/
theorem GetFreeID_returns_first_invalid (cs : List XrdClientID) :
    ((GetFreeID cs).2 < (GetFreeID cs).1.length ∧
      ((GetFreeID cs).1.getD (GetFreeID cs).2 blankClientID).IsValid
        = false) ∧
    (∀ j, j < (GetFreeID cs).2 →
      (cs.getD j blankClientID).IsValid = true) ∧
    ((∃ c ∈ cs, c.IsValid = false) → (GetFreeID cs).1 = cs) ∧
    ((∀ c ∈ cs, c.IsValid = true) →
      (GetFreeID cs).1 = cs ++ [blankClientID] ∧
      (GetFreeID cs).2 = cs.length) ∧
    (∀ k, k < cs.length →
      (GetFreeID (applyClientOp cs (ClientOp.detach k))).2 ≤ k) := by
  have hdetach : ∀ k, k < cs.length →
      (GetFreeID (applyClientOp cs (ClientOp.detach k))).2 ≤ k :=
    fun k hk => getFreeID_after_detach_le cs k hk
  cases h : cs.findIdx? (fun c => !c.IsValid) with
  | some i =>
    obtain ⟨hlt, hpi, hmin⟩ := List.findIdx?_eq_some_iff_getElem.mp h
    have hres : GetFreeID cs = (cs, i) := by
      simp [GetFreeID, h]
    rw [hres]
    refine ⟨⟨hlt, ?_⟩, ?_, fun _ => rfl, ?_, hdetach⟩
    · rw [getD_eq_getElem cs i hlt]
      simpa using hpi
    · intro j hj
      have hjlt : j < cs.length := lt_trans hj hlt
      rw [getD_eq_getElem cs j hjlt]
      have hm := hmin j hj
      simpa using hm
    · intro hall
      have hvi := hall cs[i] (List.getElem_mem hlt)
      simp [hvi] at hpi
  | none =>
    have hall := List.findIdx?_eq_none_iff.mp h
    have hres : GetFreeID cs = (cs ++ [blankClientID], cs.length) := by
      simp [GetFreeID, h]
    rw [hres]
    refine ⟨⟨by simp, ?_⟩, ?_, ?_, fun _ => ⟨rfl, rfl⟩, hdetach⟩
    · rw [List.getD_eq_getElem?_getD, List.getElem?_concat_length]
      rfl
    · intro j hj
      rw [getD_eq_getElem cs j hj]
      have hv := hall cs[j] (List.getElem_mem hj)
      simpa using hv
    · rintro ⟨c, hc, hcv⟩
      have hv := hall c hc
      simp [hcv] at hv

/-- C4 witness: in the one-slot table holding a valid handle, detaching
index 0 and calling `GetFreeID()` again returns index 0. -/
theorem GetFreeID_returns_first_invalid_witness :
    (GetFreeID (applyClientOp [XrdClientID.construct (some 3) 1]
        (ClientOp.detach 0))).2 ≤ 0 :=
  (GetFreeID_returns_first_invalid
    [XrdClientID.construct (some 3) 1]).2.2.2.2 0 (by decide)

/-- C5: `GetNClients()` counts the slots holding a currently valid
handle (the length of the valid-slot sublist, not the sequence length);
detaching resets the slot in place — the sequence length is unchanged
and the slot becomes invalid — and for any sequence of attach/detach
events, a slot that was valid and is never detached keeps exactly the
handle it held, so earlier-returned indices stay stable. -/
theorem GetNClients_counts_valid_and_slots_stable :
    (∀ cs : List XrdClientID,
      GetNClients cs = (cs.filter (fun c => c.IsValid)).length) ∧
    (∀ (cs : List XrdClientID) (k : Nat),
      (applyClientOp cs (ClientOp.detach k)).length = cs.length) ∧
    (∀ (cs : List XrdClientID) (k : Nat), k < cs.length →
      ((applyClientOp cs (ClientOp.detach k)).getD k blankClientID).IsValid
        = false) ∧
    (∀ (cs : List XrdClientID) (ops : List ClientOp) (i : Nat),
      (cs.getD i blankClientID).IsValid = true →
      (∀ op ∈ ops, op ≠ ClientOp.detach i) →
      (runClientOps cs ops).getD i blankClientID
        = cs.getD i blankClientID) :=
  ⟨fun cs => List.countP_eq_length_filter _ cs,
    fun cs k => by simp [applyClientOp],
    fun cs k hk => detach_slot_invalid cs k hk,
    fun cs ops i hv hne => runClientOps_stable ops cs i hv hne⟩

/-- C5 witness: in a two-slot table with two valid handles, detaching
index 1 and then attaching a new client leaves slot 0 holding exactly
the handle it held before. -/
theorem GetNClients_counts_valid_and_slots_stable_witness :
    (runClientOps
        [XrdClientID.construct (some 3) 0, XrdClientID.construct (some 4) 1]
        [ClientOp.detach 1, ClientOp.attach 5 2]).getD 0 blankClientID
      = [XrdClientID.construct (some 3) 0,
          XrdClientID.construct (some 4) 1].getD 0 blankClientID :=
  GetNClients_counts_valid_and_slots_stable.2.2.2
    [XrdClientID.construct (some 3) 0, XrdClientID.construct (some 4) 1]
    [ClientOp.detach 1, ClientOp.attach 5 2] 0 (by decide) (by decide)

/-! ## Claims about aliasing of the internal collections -/

/-- C9 counterexample: the public accessors `Clients()` and `Workers()`
return `(std::vector<XrdClientID *> *)&fClients` and
`(std::list<XrdProofWorker *> *)&fWorkers` — mutable pointers to the
internal collections with the `const` qualifier cast away — so the claim
that no public operation hands out a mutable alias is false. -/
theorem clients_workers_expose_collections_cex :
    exposesInternalCollection PublicOp.Clients = true ∧
    exposesInternalCollection PublicOp.Workers = true := by
  decide

/-- C9 amended: every public operation of the proxy except the two
accessors `Clients()` and `Workers()` gives callers no mutable alias to
the internal Worker Pool or Client Handle Table; those two return
mutable pointers to the collections themselves. -/
theorem only_clients_workers_expose_collections (op : PublicOp)
    (h1 : op ≠ PublicOp.Clients) (h2 : op ≠ PublicOp.Workers) :
    exposesInternalCollection op = false := by
  cases op <;> first | rfl | exact absurd rfl h1 | exact absurd rfl h2

/-- C9 amended witness: `GetNWorkers()` exposes no internal collection. -/
theorem only_clients_workers_expose_collections_witness :
    exposesInternalCollection PublicOp.GetNWorkers = false :=
  only_clients_workers_expose_collections PublicOp.GetNWorkers
    (by decide) (by decide)

end XrdProofd
